import Mathlib

/-!
Shallow embedding of the coniglio AMQP resilience layer (src/src/index.ts).

The module wraps an amqplib connection: a coalesced reconnect operation
(`login`), an exponential jittered backoff sleeper (`getExpSleeper`), a
push-to-pull consume generator with a FIFO delivery buffer
(`consumeGenerator` / `startConsumer`), a listen pipeline with JSON decoding
and routing-key filtering (`listen` / `safeJson`), and a retry-forever
publish with broker confirms (`publish`).

JSON encoding/decoding is an external collaborator of the module (the
source delegates to the host JSON object), so the codec is abstracted as a
parameter `parse : String → Except String JVal` / `stringify : JVal → String`
wherever the source calls it.
-/

namespace Coniglio

/-- Model of a JSON value, the domain of the external JSON codec. -/
inductive JVal where
  | jnull
  | jbool (b : Bool)
  | jnum (n : Int)
  | jstr (s : String)
deriving Repr, DecidableEq

/-- The `fields` record of an amqplib ConsumeMessage (only the routing key
is consulted by the module). -/
structure MsgFields where
  routingKey : String
deriving Repr, DecidableEq

/-- A raw broker delivery: its body (a Buffer, modelled as the string it
decodes to) and its fields. -/
structure ConsumeMessage where
  content : String
  fields : MsgFields
deriving Repr, DecidableEq

/-- `safeJson` from the source: JSON.parse the body, returning `undefined`
(here `none`) when parsing throws. The parser itself is the external
collaborator `parse`. -/
def safeJson (parse : String → Except String JVal) (s : String) : Option JVal :=
  match parse s with
  | .ok v => some v
  | .error _ => none

/-- The caller-facing message envelope built in `listen`:
`{ raw: msg, content, data: parsed, contentIsJson: parsed !== undefined, routingKey }`. -/
structure Envelope where
  raw : ConsumeMessage
  content : String
  data : Option JVal
  contentIsJson : Bool
  routingKey : String
deriving Repr, DecidableEq

/-- What `listen` does with one raw delivery: negatively acknowledge it
(`nack(msg, allUpTo, requeue)`) and skip it, or yield an envelope. -/
inductive ListenAction where
  | nacked (allUpTo : Bool) (requeue : Bool)
  | yielded (env : Envelope)
deriving Repr, DecidableEq

/-- `const json = opts?.json !== false` — the default of the `json` option. -/
def jsonFlag (optJson : Option Bool) : Bool :=
  optJson != some false

/-- The per-delivery body of the `for await` loop in `listen`: decode the
content when `json` is set, then either nack-and-skip a delivery whose
routing key is outside the configured allow-list, or yield the envelope. -/
def processMsg (parse : String → Except String JVal) (json : Bool)
    (routingKeys : Option (List String)) (msg : ConsumeMessage) : ListenAction :=
  let content := msg.content
  let parsed := if json then safeJson parse content else none
  let routingKey := msg.fields.routingKey
  if (match routingKeys with
      | some keys => !(keys.contains routingKey)
      | none => false) then
    .nacked false false
  else
    .yielded ⟨msg, content, parsed, parsed.isSome, routingKey⟩

/-! ### Connection manager: the coalesced `login` operation

`login` guards a single in-flight reconnect with the nullable
`loginInProgress` promise: a caller that finds it set awaits that same
promise; a caller that finds it null starts a new attempt and stores its
promise. Promises are modelled by identifiers; `attempts` counts the
reconnect sequences that have been started. -/

structure GatewayState where
  loginInProgress : Option Nat
  attempts : Nat
  nextId : Nat
deriving Repr, DecidableEq

/-- One call to `login`: return the in-flight promise when there is one,
otherwise start a fresh reconnect sequence and publish its promise in
`loginInProgress`. -/
def login (s : GatewayState) : Nat × GatewayState :=
  match s.loginInProgress with
  | some p => (p, s)
  | none =>
    (s.nextId,
      { loginInProgress := some s.nextId
        attempts := s.attempts + 1
        nextId := s.nextId + 1 })

/-- The connection `close` handler installed by `login`: after a backoff it
calls `login` again. -/
def onConnClose (s : GatewayState) : Nat × GatewayState := login s

/-- The consumer/publisher channel `error` handlers installed by `login`:
they only log and trigger no reconnect of their own. -/
def onChannelError (s : GatewayState) : GatewayState := s

/-! ### Connection manager: the retry loop inside `login`

Each iteration of the `while (true)` loop tears down the previous
connection, then awaits connect, createChannel and createConfirmChannel in
that order; any exception falls to the catch, which sleeps one backoff
interval and loops. The loop body is driven by a script that says which
step of each attempt throws. -/

inductive AttemptOutcome where
  | connectFail
  | consumerFail
  | publisherFail
  | ok
deriving Repr, DecidableEq

inductive LoginEv where
  | teardown
  | connected
  | consumerChanOpened
  | publisherChanOpened
  | slept
deriving Repr, DecidableEq

/-- Which of the connection and the two channels are established when
`login` resolves. -/
structure ConnSt where
  connected : Bool
  consumerCh : Bool
  publisherCh : Bool
deriving Repr, DecidableEq

/-- One iteration of the retry loop: the events it emits, and the resulting
connection state when it reaches the `return` (none when it threw and fell
into the catch, whose backoff sleep is the final event). -/
def loginAttempt : AttemptOutcome → List LoginEv × Option ConnSt
  | .connectFail => ([.teardown, .slept], none)
  | .consumerFail => ([.teardown, .connected, .slept], none)
  | .publisherFail => ([.teardown, .connected, .consumerChanOpened, .slept], none)
  | .ok => ([.teardown, .connected, .consumerChanOpened, .publisherChanOpened],
      some ⟨true, true, true⟩)

/-- The retry loop run against a script of attempt outcomes: it resolves
only when an attempt succeeds; an exhausted script means the loop is still
retrying (it never surfaces a failure to the caller). -/
def runLogin : List AttemptOutcome → Option (List LoginEv × ConnSt)
  | [] => none
  | o :: rest =>
    match loginAttempt o with
    | (evs, some st) => some (evs, st)
    | (evs, none) =>
      match runLogin rest with
      | some (evs2, st) => some (evs ++ evs2, st)
      | none => none

/-- Checks that every backoff sleep in a login trace is immediately
followed by a teardown: after each failed attempt the whole sequence is
retried from teardown. -/
def sleepThenTeardown : List LoginEv → Bool
  | [] => true
  | .slept :: rest =>
    (match rest with
     | .teardown :: _ => true
     | _ => false) && sleepThenTeardown rest
  | _ :: rest => sleepThenTeardown rest

/-! ### Publish gateway -/

/-- A publish payload: either already a string, or an arbitrary value to be
JSON-encoded. -/
inductive Payload where
  | str (s : String)
  | obj (v : JVal)
deriving Repr, DecidableEq

/-- `const body = typeof payload === 'string' ? payload : JSON.stringify(payload)`,
with the external encoder abstracted as `stringify`. -/
def serializeBody (stringify : JVal → String) : Payload → String
  | .str s => s
  | .obj v => stringify v

inductive PublishEv where
  | attempt
  | slept
  | reconnect
deriving Repr, DecidableEq

/-- The `while (true)` retry loop of `publish`, driven by a script giving
the outcome of each successive broker confirm callback (`true` = confirm
success). It resolves only on a successful confirm, returning the event
trace and the number of publish attempts made; after every failure it
sleeps one publish-backoff interval and forces a reconnect (`login`). An
exhausted script means the loop is still retrying. -/
def runPublish : List Bool → Option (List PublishEv × Nat)
  | [] => none
  | c :: rest =>
    if c then some ([.attempt], 1)
    else
      match runPublish rest with
      | some (evs, n) => some (.attempt :: .slept :: .reconnect :: evs, n + 1)
      | none => none

def countAttempts : List PublishEv → Nat
  | [] => 0
  | .attempt :: rest => countAttempts rest + 1
  | _ :: rest => countAttempts rest

def countReconnects : List PublishEv → Nat
  | [] => 0
  | .reconnect :: rest => countReconnects rest + 1
  | _ :: rest => countReconnects rest

/-- Checks the shape of a publish trace: each attempt but the last is
immediately followed by a backoff sleep and then a forced reconnect before
the next attempt. -/
def publishTraceOk : List PublishEv → Bool
  | [.attempt] => true
  | .attempt :: .slept :: .reconnect :: rest => publishTraceOk rest
  | _ => false

/-! ### Consume sequence

`consumeGenerator` keeps a FIFO `buffer` of raw deliveries. `startConsumer`
sets the prefetch, clears the buffer, arms a connection-error handler and
registers the push consumer; the consumer callback drops null messages and
otherwise appends to the buffer and notifies; the pull loop shifts the
buffer head and yields it. The state also records the consumer-channel
generation (`channelEpoch`, bumped by each recovery) and a trace of the
setup calls made. -/

inductive SetupEv where
  | prefetchSet (epoch : Nat) (count : Nat)
  | consumeRegistered (epoch : Nat)
deriving Repr, DecidableEq

structure ConsumerState where
  channelEpoch : Nat
  buffer : List ConsumeMessage
  yielded : List ConsumeMessage
  setupTrace : List SetupEv
deriving Repr, DecidableEq

/-- `startConsumer`: `prefetch` on the current consumer channel, then
`buffer.length = 0`, then register the consume callback on the same
channel. -/
def startConsumer (prefetch : Nat) (s : ConsumerState) : ConsumerState :=
  { s with
      buffer := []
      setupTrace := s.setupTrace ++
        [.prefetchSet s.channelEpoch prefetch, .consumeRegistered s.channelEpoch] }

/-- The push consumer callback: `if (!msg) return; buffer.push(msg); notify()`.
The boolean reports whether `notify` was invoked. -/
def consumeCallback (s : ConsumerState) (msg : Option ConsumeMessage) :
    ConsumerState × Bool :=
  match msg with
  | none => (s, false)
  | some m => ({ s with buffer := s.buffer ++ [m] }, true)

/-- One step of the pull loop: when the buffer is non-empty, shift its head
into the yielded sequence; when empty, the generator just keeps waiting. -/
def pullOne (s : ConsumerState) : ConsumerState :=
  match s.buffer with
  | [] => s
  | m :: rest => { s with buffer := rest, yielded := s.yielded ++ [m] }

/-- The connection-error handler armed by `startConsumer`: `await login()`
(which replaces the consumer channel — a new epoch) then
`await startConsumer()` against the recovered channel. -/
def onConnError (prefetch : Nat) (s : ConsumerState) : ConsumerState :=
  startConsumer prefetch { s with channelEpoch := s.channelEpoch + 1 }

/-- The generator as first started: `await startConsumer()` on a fresh
state. -/
def initConsumer (prefetch : Nat) : ConsumerState :=
  startConsumer prefetch ⟨0, [], [], []⟩

/-- An interleaving of broker pushes and caller pulls (a failure-free run:
no connection error occurs). -/
inductive ConsOp where
  | push (m : ConsumeMessage)
  | pull
deriving Repr, DecidableEq

def runConsume : ConsumerState → List ConsOp → ConsumerState
  | s, [] => s
  | s, .push m :: rest => runConsume (consumeCallback s (some m)).1 rest
  | s, .pull :: rest => runConsume (pullOne s) rest

/-- The deliveries pushed by an op sequence, in push order. -/
def pushedOf : List ConsOp → List ConsumeMessage
  | [] => []
  | .push m :: rest => m :: pushedOf rest
  | .pull :: rest => pushedOf rest

/-! ### Backoff generator

`getExpSleeper(base, max)` closes over `current = base`; each call sleeps
`min(random() * (current - current/2) + current/2, max)` and then sets
`current = min(current * 2, max)`. Delays are modelled over ℚ with the
random draw `r ∈ [0, 1)` made explicit. -/

/-- The value of `current` before the n-th call of one sleeper instance. -/
def currents (base maxDelay : ℚ) : Nat → ℚ
  | 0 => base
  | n + 1 => min (currents base maxDelay n * 2) maxDelay

/-- The delay slept by one call when `current` holds `current` and the
random draw is `r`. -/
def expSleeperDelay (maxDelay current r : ℚ) : ℚ :=
  min (r * (current - current / 2) + current / 2) maxDelay

/-! ## Theorems -/

/-- C6: with a `routingKeys` allow-list configured, a delivery whose routing
key is not in the list is negatively acknowledged single-message with
`requeue = false` and is never yielded, while a delivery whose routing key
is in the list is yielded as an envelope carrying that delivery. -/
theorem routing_key_filter (parse : String → Except String JVal) (json : Bool)
    (keys : List String) (msg : ConsumeMessage) :
    (msg.fields.routingKey ∉ keys →
      processMsg parse json (some keys) msg = .nacked false false) ∧
    (msg.fields.routingKey ∈ keys →
      ∃ env, processMsg parse json (some keys) msg = .yielded env ∧
        env.raw = msg ∧ env.routingKey = msg.fields.routingKey) := by
  constructor
  · intro h
    simp [processMsg, h]
  · intro h
    refine ⟨⟨msg, msg.content, (if json then safeJson parse msg.content else none),
      (if json then safeJson parse msg.content else none).isSome,
      msg.fields.routingKey⟩, ?_, rfl, rfl⟩
    simp [processMsg, h]

theorem routing_key_filter_witness :
    ((⟨"x", ⟨"b"⟩⟩ : ConsumeMessage).fields.routingKey ∉ ["a"] ∧
      processMsg (fun _ => .error "bad") true (some ["a"]) ⟨"x", ⟨"b"⟩⟩ =
        .nacked false false) ∧
    ((⟨"x", ⟨"a"⟩⟩ : ConsumeMessage).fields.routingKey ∈ ["a"] ∧
      ∃ env, processMsg (fun _ => .error "bad") true (some ["a"]) ⟨"x", ⟨"a"⟩⟩ =
        .yielded env ∧ env.raw = ⟨"x", ⟨"a"⟩⟩ ∧
        env.routingKey = (⟨"x", ⟨"a"⟩⟩ : ConsumeMessage).fields.routingKey) :=
  ⟨⟨by decide,
    (routing_key_filter (fun _ => .error "bad") true ["a"] ⟨"x", ⟨"b"⟩⟩).1 (by decide)⟩,
   ⟨by decide,
    (routing_key_filter (fun _ => .error "bad") true ["a"] ⟨"x", ⟨"a"⟩⟩).2 (by decide)⟩⟩

/-- C7: with `json` left at its default (true), a body the parser rejects
yields an envelope with `contentIsJson = false`, an undefined decoded
payload and the raw body still accessible — the decoding step never throws;
a body the parser accepts yields the parsed value with
`contentIsJson = true`. -/
theorem safe_json_envelope (parse : String → Except String JVal)
    (msg : ConsumeMessage) :
    jsonFlag none = true ∧
    (∀ e, parse msg.content = .error e →
      processMsg parse (jsonFlag none) none msg =
        .yielded ⟨msg, msg.content, none, false, msg.fields.routingKey⟩) ∧
    (∀ v, parse msg.content = .ok v →
      processMsg parse (jsonFlag none) none msg =
        .yielded ⟨msg, msg.content, some v, true, msg.fields.routingKey⟩) := by
  refine ⟨rfl, ?_, ?_⟩
  · intro e h
    simp [processMsg, jsonFlag, safeJson, h]
  · intro v h
    simp [processMsg, jsonFlag, safeJson, h]

theorem safe_json_envelope_witness :
    ((fun _ : String => (.error "bad" : Except String JVal)) "oops" = .error "bad" ∧
      processMsg (fun _ => .error "bad") (jsonFlag none) none ⟨"oops", ⟨"k"⟩⟩ =
        .yielded ⟨⟨"oops", ⟨"k"⟩⟩, "oops", none, false, "k"⟩) ∧
    ((fun _ : String => (.ok .jnull : Except String JVal)) "null" = .ok .jnull ∧
      processMsg (fun _ => .ok .jnull) (jsonFlag none) none ⟨"null", ⟨"k"⟩⟩ =
        .yielded ⟨⟨"null", ⟨"k"⟩⟩, "null", some .jnull, true, "k"⟩) :=
  ⟨⟨rfl, (safe_json_envelope (fun _ => .error "bad") ⟨"oops", ⟨"k"⟩⟩).2.1 "bad" rfl⟩,
   ⟨rfl, (safe_json_envelope (fun _ => .ok .jnull) ⟨"null", ⟨"k"⟩⟩).2.2 .jnull rfl⟩⟩

/-- C9: with the `json` option explicitly false, every yielded envelope has
`contentIsJson = false` and an undefined decoded payload, even when the
parser would have accepted the body: the flag reports that no decode was
attempted, not whether the body is decodable. -/
theorem json_false_no_decode (parse : String → Except String JVal)
    (routingKeys : Option (List String)) (msg : ConsumeMessage) (env : Envelope)
    (h : processMsg parse (jsonFlag (some false)) routingKeys msg = .yielded env) :
    jsonFlag (some false) = false ∧ env.data = none ∧ env.contentIsJson = false := by
  refine ⟨rfl, ?_⟩
  have h2 : processMsg parse false routingKeys msg = .yielded env := h
  simp only [processMsg, Bool.false_eq_true, if_false] at h2
  split at h2
  · exact absurd h2 (by simp)
  · simp only [ListenAction.yielded.injEq] at h2
    subst h2
    exact ⟨rfl, rfl⟩

theorem json_false_no_decode_witness :
    processMsg (fun _ => .ok .jnull) (jsonFlag (some false)) none ⟨"null", ⟨"k"⟩⟩ =
      .yielded ⟨⟨"null", ⟨"k"⟩⟩, "null", none, false, "k"⟩ ∧
    (jsonFlag (some false) = false ∧
      (⟨⟨"null", ⟨"k"⟩⟩, "null", none, false, "k"⟩ : Envelope).data = none ∧
      (⟨⟨"null", ⟨"k"⟩⟩, "null", none, false, "k"⟩ : Envelope).contentIsJson = false) :=
  ⟨by decide,
   json_false_no_decode (fun _ => .ok .jnull) none ⟨"null", ⟨"k"⟩⟩
     ⟨⟨"null", ⟨"k"⟩⟩, "null", none, false, "k"⟩ (by decide)⟩

/-- C10: a null message pushed by the broker is dropped by the consumer
callback: the state is unchanged (nothing is buffered, so it can never be
yielded), `notify` is not invoked, and with an empty buffer the pull loop
just keeps waiting. -/
theorem null_message_ignored (s : ConsumerState) :
    consumeCallback s none = (s, false) ∧
    (s.buffer = [] → pullOne (consumeCallback s none).1 = s) := by
  refine ⟨rfl, fun h => ?_⟩
  simp [consumeCallback, pullOne, h]

theorem null_message_ignored_witness :
    consumeCallback (initConsumer 10) none = (initConsumer 10, false) ∧
    ((initConsumer 10).buffer = [] ∧
      pullOne (consumeCallback (initConsumer 10) none).1 = initConsumer 10) :=
  ⟨(null_message_ignored (initConsumer 10)).1,
   by decide,
   (null_message_ignored (initConsumer 10)).2 (by decide)⟩

/-- C5: the connection-error handler re-runs the full subscription setup —
prefetch, then consume registration, both against the recovered
(next-epoch) consumer channel — and the sequence does not terminate: its
yielded history survives the recovery, and a delivery pushed on the new
subscription is yielded by the next pull. -/
theorem resubscribe_on_failure (prefetch : Nat) (s : ConsumerState)
    (m : ConsumeMessage) :
    (onConnError prefetch s).setupTrace = s.setupTrace ++
      [.prefetchSet (s.channelEpoch + 1) prefetch,
       .consumeRegistered (s.channelEpoch + 1)] ∧
    (onConnError prefetch s).channelEpoch = s.channelEpoch + 1 ∧
    (onConnError prefetch s).buffer = [] ∧
    (onConnError prefetch s).yielded = s.yielded ∧
    (pullOne (consumeCallback (onConnError prefetch s) (some m)).1).yielded =
      s.yielded ++ [m] ∧
    (consumeCallback (onConnError prefetch s) (some m)).2 = true := by
  refine ⟨rfl, rfl, rfl, rfl, ?_, rfl⟩
  simp [onConnError, startConsumer, consumeCallback, pullOne]

/-- C1: a `login` call made while a login is in flight returns the same
in-flight promise and changes nothing (no second attempt is started); and
when a connection-close and a channel-error handler fire in the same
scheduling turn on an idle gateway, exactly one login attempt is started —
the channel-error handler only logs — and any further `login` call during
that turn receives the very promise the close handler obtained. -/
theorem login_coalesced (s : GatewayState) (p : Nat)
    (h : s.loginInProgress = some p) :
    login s = (p, s) ∧
    (∀ t : GatewayState, t.loginInProgress = none →
      (onChannelError (onConnClose t).2).attempts = t.attempts + 1 ∧
      login (onConnClose t).2 = ((onConnClose t).1, (onConnClose t).2)) := by
  constructor
  · simp [login, h]
  · intro t ht
    constructor
    · simp [onChannelError, onConnClose, login, ht]
    · simp [onConnClose, login, ht]

theorem login_coalesced_witness :
    (⟨some 5, 1, 6⟩ : GatewayState).loginInProgress = some 5 ∧
    (login ⟨some 5, 1, 6⟩ = (5, ⟨some 5, 1, 6⟩) ∧
     (∀ t : GatewayState, t.loginInProgress = none →
       (onChannelError (onConnClose t).2).attempts = t.attempts + 1 ∧
       login (onConnClose t).2 = ((onConnClose t).1, (onConnClose t).2))) :=
  ⟨rfl, login_coalesced ⟨some 5, 1, 6⟩ 5 rfl⟩

/-- Invariant of the consume buffer: across any failure-free interleaving
of pushes and pulls, the yielded sequence followed by the residual buffer
is the initial contents followed by the pushed deliveries — each pushed
delivery is appended once and moves to the yielded sequence exactly once. -/
theorem runConsume_inv (ops : List ConsOp) (s : ConsumerState) :
    (runConsume s ops).yielded ++ (runConsume s ops).buffer =
      s.yielded ++ s.buffer ++ pushedOf ops := by
  induction ops generalizing s with
  | nil => simp [runConsume, pushedOf]
  | cons o rest ih =>
    cases o with
    | push m =>
      simp only [runConsume, pushedOf]
      rw [ih]
      simp [consumeCallback]
    | pull =>
      simp only [runConsume, pushedOf]
      rw [ih]
      cases hb : s.buffer with
      | nil => simp [pullOne, hb]
      | cons m rest2 => simp [pullOne, hb]

/-- C4: in a failure-free run, once the broker has pushed its deliveries
and the caller has drained the buffer, the consume sequence has yielded
exactly the pushed deliveries, as many as were pushed, in push order. -/
theorem consume_fifo (prefetch : Nat) (ops : List ConsOp)
    (h : (runConsume (initConsumer prefetch) ops).buffer = []) :
    (runConsume (initConsumer prefetch) ops).yielded = pushedOf ops ∧
    (runConsume (initConsumer prefetch) ops).yielded.length =
      (pushedOf ops).length := by
  have hinv := runConsume_inv ops (initConsumer prefetch)
  rw [h, List.append_nil] at hinv
  simp only [show (initConsumer prefetch).yielded = [] from rfl,
    show (initConsumer prefetch).buffer = [] from rfl, List.nil_append] at hinv
  exact ⟨hinv, by rw [hinv]⟩

theorem consume_fifo_witness :
    (runConsume (initConsumer 10)
      [.push ⟨"1", ⟨"a"⟩⟩, .push ⟨"2", ⟨"b"⟩⟩, .pull, .pull]).buffer = [] ∧
    ((runConsume (initConsumer 10)
        [.push ⟨"1", ⟨"a"⟩⟩, .push ⟨"2", ⟨"b"⟩⟩, .pull, .pull]).yielded =
      pushedOf [.push ⟨"1", ⟨"a"⟩⟩, .push ⟨"2", ⟨"b"⟩⟩, .pull, .pull] ∧
     (runConsume (initConsumer 10)
        [.push ⟨"1", ⟨"a"⟩⟩, .push ⟨"2", ⟨"b"⟩⟩, .pull, .pull]).yielded.length =
      (pushedOf [.push ⟨"1", ⟨"a"⟩⟩, .push ⟨"2", ⟨"b"⟩⟩, .pull, .pull]).length) :=
  ⟨by decide,
   consume_fifo 10 [.push ⟨"1", ⟨"a"⟩⟩, .push ⟨"2", ⟨"b"⟩⟩, .pull, .pull] (by decide)⟩

/-- C2: whenever the login retry loop resolves, the connection, the
consumer channel and the publisher channel are all established — the final
attempt performed teardown, connect, consumer channel, publisher channel in
exactly that order — and every backoff sleep taken after a failed attempt
is immediately followed by a retry starting from teardown; the loop never
resolves with a partially-initialized state and never surfaces a failure. -/
theorem login_full_init (script : List AttemptOutcome) (tr : List LoginEv)
    (st : ConnSt) (h : runLogin script = some (tr, st)) :
    st = ⟨true, true, true⟩ ∧
    (∃ tl, tr = .teardown :: tl) ∧
    (∃ pre, tr = pre ++
      [.teardown, .connected, .consumerChanOpened, .publisherChanOpened]) ∧
    sleepThenTeardown tr = true := by
  induction script generalizing tr st with
  | nil => exact absurd h (by simp [runLogin])
  | cons o rest ih =>
    cases o with
    | ok =>
      simp only [runLogin, loginAttempt, Option.some.injEq, Prod.mk.injEq] at h
      obtain ⟨h1, h2⟩ := h
      subst h1
      subst h2
      exact ⟨rfl, ⟨_, rfl⟩, ⟨[], rfl⟩, rfl⟩
    | connectFail =>
      simp only [runLogin, loginAttempt] at h
      cases hr : runLogin rest with
      | none => rw [hr] at h; simp at h
      | some p =>
        obtain ⟨evs2, st2⟩ := p
        rw [hr] at h
        simp only [Option.some.injEq, Prod.mk.injEq, List.cons_append,
          List.nil_append] at h
        obtain ⟨h1, h2⟩ := h
        subst h1
        subst h2
        obtain ⟨hst, ⟨tl, htl⟩, ⟨pre, hpre⟩, hstt⟩ := ih evs2 st2 hr
        subst htl
        refine ⟨hst, ⟨_, rfl⟩, ⟨.teardown :: .slept :: pre, by simp [hpre]⟩, ?_⟩
        simp only [sleepThenTeardown] at hstt
        simp [sleepThenTeardown, hstt]
    | consumerFail =>
      simp only [runLogin, loginAttempt] at h
      cases hr : runLogin rest with
      | none => rw [hr] at h; simp at h
      | some p =>
        obtain ⟨evs2, st2⟩ := p
        rw [hr] at h
        simp only [Option.some.injEq, Prod.mk.injEq, List.cons_append,
          List.nil_append] at h
        obtain ⟨h1, h2⟩ := h
        subst h1
        subst h2
        obtain ⟨hst, ⟨tl, htl⟩, ⟨pre, hpre⟩, hstt⟩ := ih evs2 st2 hr
        subst htl
        refine ⟨hst, ⟨_, rfl⟩,
          ⟨.teardown :: .connected :: .slept :: pre, by simp [hpre]⟩, ?_⟩
        simp only [sleepThenTeardown] at hstt
        simp [sleepThenTeardown, hstt]
    | publisherFail =>
      simp only [runLogin, loginAttempt] at h
      cases hr : runLogin rest with
      | none => rw [hr] at h; simp at h
      | some p =>
        obtain ⟨evs2, st2⟩ := p
        rw [hr] at h
        simp only [Option.some.injEq, Prod.mk.injEq, List.cons_append,
          List.nil_append] at h
        obtain ⟨h1, h2⟩ := h
        subst h1
        subst h2
        obtain ⟨hst, ⟨tl, htl⟩, ⟨pre, hpre⟩, hstt⟩ := ih evs2 st2 hr
        subst htl
        refine ⟨hst, ⟨_, rfl⟩,
          ⟨.teardown :: .connected :: .consumerChanOpened :: .slept :: pre,
            by simp [hpre]⟩, ?_⟩
        simp only [sleepThenTeardown] at hstt
        simp [sleepThenTeardown, hstt]

theorem login_full_init_witness :
    runLogin [.connectFail, .ok] =
      some ([.teardown, .slept, .teardown, .connected, .consumerChanOpened,
        .publisherChanOpened], ⟨true, true, true⟩) ∧
    ((⟨true, true, true⟩ : ConnSt) = ⟨true, true, true⟩ ∧
     (∃ tl, ([.teardown, .slept, .teardown, .connected, .consumerChanOpened,
        .publisherChanOpened] : List LoginEv) = .teardown :: tl) ∧
     (∃ pre, ([.teardown, .slept, .teardown, .connected, .consumerChanOpened,
        .publisherChanOpened] : List LoginEv) = pre ++
        [.teardown, .connected, .consumerChanOpened, .publisherChanOpened]) ∧
     sleepThenTeardown [.teardown, .slept, .teardown, .connected,
        .consumerChanOpened, .publisherChanOpened] = true) :=
  ⟨by decide, login_full_init [.connectFail, .ok] _ _ (by decide)⟩

/-- C3: `publish` passes a string payload through unchanged and JSON-encodes
any other payload; whenever the retry loop resolves it has made exactly one
attempt per confirm outcome consumed, the last confirm succeeded and all
earlier ones failed, every failed attempt is followed by one publish-backoff
sleep and a forced reconnect before the next attempt, and in particular when
confirms fail twice then succeed it resolves after exactly 3 attempts with
at least one reconnect in between. -/
theorem publish_confirm_retry (confirms : List Bool) (evs : List PublishEv)
    (n : Nat) (h : runPublish confirms = some (evs, n)) :
    (∀ stringify s, serializeBody stringify (.str s) = s) ∧
    (∀ stringify v, serializeBody stringify (.obj v) = stringify v) ∧
    (countAttempts evs = n ∧
     countReconnects evs = n - 1 ∧
     publishTraceOk evs = true ∧
     1 ≤ n ∧
     confirms.getD (n - 1) false = true ∧
     (∀ i, i + 1 < n → confirms.getD i true = false)) ∧
    runPublish [false, false, true] =
      some ([.attempt, .slept, .reconnect, .attempt, .slept, .reconnect,
        .attempt], 3) ∧
    1 ≤ countReconnects [.attempt, .slept, .reconnect, .attempt, .slept,
      .reconnect, .attempt] := by
  refine ⟨fun _ _ => rfl, fun _ _ => rfl, ?_, by decide, by decide⟩
  induction confirms generalizing evs n with
  | nil => exact absurd h (by simp [runPublish])
  | cons c rest ih =>
    cases c with
    | true =>
      simp only [runPublish, if_true, Option.some.injEq, Prod.mk.injEq] at h
      obtain ⟨h1, h2⟩ := h
      subst h1
      subst h2
      refine ⟨rfl, rfl, rfl, le_refl 1, rfl, fun i hi => absurd hi (by omega)⟩
    | false =>
      simp only [runPublish, Bool.false_eq_true, if_false] at h
      cases hr : runPublish rest with
      | none => rw [hr] at h; simp at h
      | some p =>
        obtain ⟨evs2, n2⟩ := p
        rw [hr] at h
        simp only [Option.some.injEq, Prod.mk.injEq] at h
        obtain ⟨h1, h2⟩ := h
        subst h1
        subst h2
        obtain ⟨ha, hrc, hok, hn, hget, hall⟩ := ih evs2 n2 hr
        obtain ⟨m, rfl⟩ : ∃ m, n2 = m + 1 := ⟨n2 - 1, by omega⟩
        refine ⟨?_, ?_, ?_, ?_, ?_, ?_⟩
        · simp [countAttempts, ha]
        · simp only [countReconnects, hrc]
          omega
        · simpa [publishTraceOk] using hok
        · omega
        · simpa using hget
        · intro i hi
          cases i with
          | zero => rfl
          | succ j => simpa using hall j (by omega)

theorem publish_confirm_retry_witness :
    runPublish [false, false, true] =
      some ([.attempt, .slept, .reconnect, .attempt, .slept, .reconnect,
        .attempt], 3) ∧
    ((∀ stringify s, serializeBody stringify (.str s) = s) ∧
     (∀ stringify v, serializeBody stringify (.obj v) = stringify v) ∧
     (countAttempts [.attempt, .slept, .reconnect, .attempt, .slept,
        .reconnect, .attempt] = 3 ∧
      countReconnects [.attempt, .slept, .reconnect, .attempt, .slept,
        .reconnect, .attempt] = 3 - 1 ∧
      publishTraceOk [.attempt, .slept, .reconnect, .attempt, .slept,
        .reconnect, .attempt] = true ∧
      1 ≤ 3 ∧
      List.getD [false, false, true] (3 - 1) false = true ∧
      (∀ i, i + 1 < 3 → List.getD [false, false, true] i true = false)) ∧
     runPublish [false, false, true] =
       some ([.attempt, .slept, .reconnect, .attempt, .slept, .reconnect,
         .attempt], 3) ∧
     1 ≤ countReconnects [.attempt, .slept, .reconnect, .attempt, .slept,
       .reconnect, .attempt]) :=
  ⟨by decide,
   publish_confirm_retry [false, false, true]
     [.attempt, .slept, .reconnect, .attempt, .slept, .reconnect, .attempt] 3
     (by decide)⟩

/-- The sleeper's `current` never exceeds the configured max. -/
theorem currents_le (base maxDelay : ℚ) (hbm : base ≤ maxDelay) (n : Nat) :
    currents base maxDelay n ≤ maxDelay := by
  cases n with
  | zero => exact hbm
  | succ n => exact min_le_right _ _

/-- The sleeper's `current` stays positive. -/
theorem currents_pos (base maxDelay : ℚ) (hb : 0 < base) (hbm : base ≤ maxDelay)
    (n : Nat) : 0 < currents base maxDelay n := by
  induction n with
  | zero => exact hb
  | succ n ih =>
    exact lt_min (by linarith) (lt_of_lt_of_le hb hbm)

/-- C8: for a backoff instance with positive base at most the max, each
call draws `r ∈ [0, 1)` and sleeps a delay lying in `[current/2, current)`
and never above the max; afterwards `current` is doubled but capped at the
max, so the successive `current` values — hence the interval midpoints
`3·current/4` — are non-decreasing and never exceed the max. -/
theorem backoff_bounds (base maxDelay r : ℚ) (n : Nat) (hb : 0 < base)
    (hbm : base ≤ maxDelay) (hr0 : 0 ≤ r) (hr1 : r < 1) :
    currents base maxDelay n / 2 ≤
      expSleeperDelay maxDelay (currents base maxDelay n) r ∧
    expSleeperDelay maxDelay (currents base maxDelay n) r <
      currents base maxDelay n ∧
    expSleeperDelay maxDelay (currents base maxDelay n) r ≤ maxDelay ∧
    currents base maxDelay n ≤ currents base maxDelay (n + 1) ∧
    currents base maxDelay (n + 1) ≤ maxDelay ∧
    3 * currents base maxDelay n / 4 ≤ 3 * currents base maxDelay (n + 1) / 4 := by
  have hc := currents_pos base maxDelay hb hbm n
  have hle := currents_le base maxDelay hbm n
  have hmono : currents base maxDelay n ≤ currents base maxDelay (n + 1) := by
    simp only [currents]
    exact le_min (by linarith) hle
  refine ⟨?_, ?_, min_le_right _ _, hmono, min_le_right _ _, by linarith⟩
  · unfold expSleeperDelay
    apply le_min
    · nlinarith
    · linarith
  · unfold expSleeperDelay
    calc min (r * (currents base maxDelay n - currents base maxDelay n / 2) +
          currents base maxDelay n / 2) maxDelay ≤
        r * (currents base maxDelay n - currents base maxDelay n / 2) +
          currents base maxDelay n / 2 := min_le_left _ _
      _ < currents base maxDelay n := by nlinarith

theorem backoff_bounds_witness :
    (0 : ℚ) < 1000 ∧ (1000 : ℚ) ≤ 30000 ∧ (0 : ℚ) ≤ 1 / 2 ∧ (1 / 2 : ℚ) < 1 ∧
    (currents 1000 30000 0 / 2 ≤ expSleeperDelay 30000 (currents 1000 30000 0) (1 / 2) ∧
     expSleeperDelay 30000 (currents 1000 30000 0) (1 / 2) < currents 1000 30000 0 ∧
     expSleeperDelay 30000 (currents 1000 30000 0) (1 / 2) ≤ 30000 ∧
     currents 1000 30000 0 ≤ currents 1000 30000 (0 + 1) ∧
     currents 1000 30000 (0 + 1) ≤ 30000 ∧
     3 * currents 1000 30000 0 / 4 ≤ 3 * currents 1000 30000 (0 + 1) / 4) :=
  ⟨by norm_num, by norm_num, by norm_num, by norm_num,
   backoff_bounds 1000 30000 (1 / 2) 0 (by norm_num) (by norm_num) (by norm_num)
     (by norm_num)⟩

end Coniglio
